import Mathlib

/-!
Verification of the data-model and marker-geometry slice of CustomMatPlot
(`cmp_datamodels.h`, `spl_label.h`): the `Lim` min/max range type, the
marker path builder `Marker::getMarkerPathFrom`, and the `iota_delta`
sequence generators.  Paths are modelled over the real numbers; the host
GUI toolkit's path primitives (`addEllipse`, `addStar`, `addRectangle`,
`addTriangle`, `applyTransform`) are modelled from their documented
point-by-point construction.
-/

/-- Embeds `template <class ValueType> struct Lim`: a min/max pair. -/
structure Lim (α : Type) where
  min : α
  max : α
deriving DecidableEq

/-- Embeds `Lim::operator/=`: divides both bounds in place; the model
returns the updated object (the C++ returns a reference to it). -/
def Lim.divAssign {α : Type} [Div α] (lim : Lim α) (val : α) : Lim α :=
  ⟨lim.min / val, lim.max / val⟩

/-- Intended semantics of the free `operator/(const Lim&, ValueType)`.
The source's body first declares `Lim<ValueType> new_lim;`, which needs a
default constructor `Lim` does not have (its only constructor takes the two
bounds), so every instantiation of the operator is ill-formed; this
definition performs the two assignments the body then makes
(`new_lim.min = rhs.min / val; new_lim.max = rhs.max / val`). -/
def limDivIntended {α : Type} [Div α] (rhs : Lim α) (val : α) : Lim α :=
  ⟨rhs.min / val, rhs.max / val⟩

/-- Embeds `Lim::operator=`: assigns `rhs.min`/`rhs.max` into the fields and
returns the updated left-hand side.  `rhs` is taken by value in the C++, so
the caller's argument is never mutated; the pure model reflects that. -/
def Lim.assign {α : Type} (_lhs rhs : Lim α) : Lim α :=
  ⟨rhs.min, rhs.max⟩

/-- Default copy-assignment semantics for comparison: the left-hand side
simply becomes a field-wise copy of `rhs`. -/
def Lim.assignDefault {α : Type} (_lhs rhs : Lim α) : Lim α :=
  rhs

/-- Embeds `Lim::operator==`: `min == rhs.min && max == rhs.max`. -/
def Lim.beq {α : Type} [DecidableEq α] (a b : Lim α) : Bool :=
  decide (a.min = b.min) && decide (a.max = b.max)

/-- Embeds `Lim::operator!=`: `min != rhs.min || max != rhs.max`. -/
def Lim.bne {α : Type} [DecidableEq α] (a b : Lim α) : Bool :=
  decide (a.min ≠ b.min) || decide (a.max ≠ b.max)

/-- Embeds `Lim::operator bool`: `max != zero || min != zero`. -/
def Lim.toBool {α : Type} [Zero α] [DecidableEq α] (lim : Lim α) : Bool :=
  decide (lim.max ≠ 0) || decide (lim.min ≠ 0)

/-- Embeds `Lim::isMinOrMaxZero`: `max == zero || min == zero`. -/
def Lim.isMinOrMaxZero {α : Type} [Zero α] [DecidableEq α] (lim : Lim α) : Bool :=
  decide (lim.max = 0) || decide (lim.min = 0)

/-- Embeds `iota_delta(first, last, x0, dx)`: writes `x0`, then keeps
adding `dx`, once per cell of the range.  The C++ range `[first, last)` of
length `n` is modelled by the number `n` of cells, and the written cells are
returned as a list. -/
def iota_delta {α : Type} [Add α] : ℕ → α → α → List α
  | 0, _, _ => []
  | n + 1, x0, dx => x0 :: iota_delta n (x0 + dx) dx

/-- Embeds the second `iota_delta` overload, which writes `f(x0)` instead of
`x0` at every step. -/
def iota_delta_f {α : Type} [Add α] : ℕ → α → α → (α → α) → List α
  | 0, _, _, _ => []
  | n + 1, x0, dx, f => f x0 :: iota_delta_f n (x0 + dx) dx f

/-! ## Marker data model and path geometry

Paths are modelled as the list of path-building commands the toolkit
stores; every coordinate (anchor and Bézier control points alike) is kept,
matching how the toolkit computes a path's bounding box. -/

/-- Embeds `Marker::Type`, the discriminated shape selector. -/
inductive MarkerType
  | Circle
  | Pentagram
  | Square
  | UpTriangle
  | RightTriangle
  | DownTriangle
  | LeftTriangle
deriving DecidableEq, Fintype

/-- Underlying integer value of each `Marker::Type` enumerator (a scoped
C++ enum over `int`, values assigned in declaration order from 0). -/
def MarkerType.code : MarkerType → ℤ
  | .Circle => 0
  | .Pentagram => 1
  | .Square => 2
  | .UpTriangle => 3
  | .RightTriangle => 4
  | .DownTriangle => 5
  | .LeftTriangle => 6

/-- Models `juce::Colour` as its ARGB word. -/
structure Colour where
  argb : ℕ
deriving DecidableEq

/-- Models `juce::PathStrokeType::JointStyle`. -/
inductive JointStyle
  | mitered
  | curved
  | beveled
deriving DecidableEq

/-- Models `juce::PathStrokeType::EndCapStyle`. -/
inductive EndCapStyle
  | butt
  | square
  | rounded
deriving DecidableEq

/-- Models `juce::PathStrokeType`: thickness plus joint and end-cap styles. -/
structure PathStrokeType where
  strokeThickness : ℝ
  jointStyle : JointStyle
  endCapStyle : EndCapStyle

/-- Embeds `struct Marker`: shape selector plus the visual attributes that
play no part in path construction. -/
structure Marker where
  type : MarkerType
  EdgeColour : Option Colour
  FaceColour : Option Colour
  edge_stroke_type : PathStrokeType

/-- One stored path command; Bézier control points are stored alongside
anchors, as in the toolkit's path representation. -/
inductive PathElem
  | startNewSubPath (p : ℝ × ℝ)
  | lineTo (p : ℝ × ℝ)
  | cubicTo (c1 c2 e : ℝ × ℝ)
  | closeSubPath

/-- A path is its list of stored commands; a default-constructed path is
the empty list. -/
abbrev JPath := List PathElem

/-- The coordinates a command stores (control points included). -/
def PathElem.points : PathElem → List (ℝ × ℝ)
  | .startNewSubPath p => [p]
  | .lineTo p => [p]
  | .cubicTo c1 c2 e => [c1, c2, e]
  | .closeSubPath => []

/-- All coordinates stored in a path: the toolkit's bounding box is the
bounding box of exactly these points. -/
def pathPoints (path : JPath) : List (ℝ × ℝ) :=
  (path.map PathElem.points).flatten

/-- Models `juce::Path::applyTransform`: every stored point is mapped. -/
def applyTransform (path : JPath) (f : ℝ × ℝ → ℝ × ℝ) : JPath :=
  path.map fun e =>
    match e with
    | .startNewSubPath p => .startNewSubPath (f p)
    | .lineTo p => .lineTo (f p)
    | .cubicTo c1 c2 q => .cubicTo (f c1) (f c2) (f q)
    | .closeSubPath => .closeSubPath

noncomputable section

/-- Models `juce::AffineTransform::rotation(rad)` applied to a point:
`(cos·x - sin·y, sin·x + cos·y)` (pivot at the origin, as the source
passes `0.0f, 0.0f`). -/
def rotationTransform (rad : ℝ) (p : ℝ × ℝ) : ℝ × ℝ :=
  (Real.cos rad * p.1 - Real.sin rad * p.2,
   Real.sin rad * p.1 + Real.cos rad * p.2)

/-- Models `juce::Point::getPointOnCircumference(radius, angle)`:
`(x + radius·sin angle, y - radius·cos angle)`. -/
def pointOnCircumference (centre : ℝ × ℝ) (radius angle : ℝ) : ℝ × ℝ :=
  (centre.1 + radius * Real.sin angle, centre.2 - radius * Real.cos angle)

/-- Models `juce::Path::addEllipse(area)`: four cubic segments whose anchor
points sit at the midpoints of the box's sides and whose control points use
the 0.55 circle-approximation factor. -/
def addEllipse (path : JPath) (x y w h : ℝ) : JPath :=
  let hw := w * 0.5
  let hw55 := hw * 0.55
  let hh := h * 0.5
  let hh55 := hh * 0.55
  let cx := x + hw
  let cy := y + hh
  path ++
    [.startNewSubPath (cx, cy - hh),
     .cubicTo (cx + hw55, cy - hh) (cx + hw, cy - hh55) (cx + hw, cy),
     .cubicTo (cx + hw, cy + hh55) (cx + hw55, cy + hh) (cx, cy + hh),
     .cubicTo (cx - hw55, cy + hh) (cx - hw, cy + hh55) (cx - hw, cy),
     .cubicTo (cx - hw, cy - hh55) (cx - hw55, cy - hh) (cx, cy - hh),
     .closeSubPath]

/-- Models `juce::Path::addStar(centre, numberOfPoints, innerRadius,
outerRadius)` with the default start angle 0: alternating outer/inner
points around the circle, then the subpath is closed. -/
def addStar (path : JPath) (centre : ℝ × ℝ) (numberOfPoints : ℕ)
    (innerRadius outerRadius : ℝ) : JPath :=
  if 1 < numberOfPoints then
    let angleBetweenPoints := 2 * Real.pi / numberOfPoints
    path ++
      ((List.range numberOfPoints).map fun i =>
        let angle := (i : ℝ) * angleBetweenPoints
        [(if i = 0 then PathElem.startNewSubPath else PathElem.lineTo)
            (pointOnCircumference centre outerRadius angle),
         PathElem.lineTo
            (pointOnCircumference centre innerRadius
              (angle + angleBetweenPoints * 0.5))]).flatten
      ++ [.closeSubPath]
  else path

/-- Models `juce::Path::addRectangle(x, y, w, h)`: the four corners,
starting from `(x, y + h)`. -/
def addRectangle (path : JPath) (x y w h : ℝ) : JPath :=
  path ++
    [.startNewSubPath (x, y + h),
     .lineTo (x, y),
     .lineTo (x + w, y),
     .lineTo (x + w, y + h),
     .closeSubPath]

/-- Models `juce::Path::addTriangle(p1, p2, p3)`. -/
def addTriangle (path : JPath) (p1 p2 p3 : ℝ × ℝ) : JPath :=
  path ++ [.startNewSubPath p1, .lineTo p2, .lineTo p3, .closeSubPath]

/-- Embeds the `addUpTriangleTo` lambda of `getMarkerPathFrom`. -/
def addUpTriangleTo (length : ℝ) (path : JPath) : JPath :=
  addTriangle path (0, -length / 2) (-length / 2, length / 2)
    (length / 2, length / 2)

/-- Embeds the switch of `Marker::getMarkerPathFrom` over the underlying
integer value of the scoped enum, so that the `default:` branch (any value
outside the seven enumerators) is part of the model. -/
def getMarkerPathFromCode (t : ℤ) (length : ℝ) : JPath :=
  let path : JPath := []
  if t = 0 then addEllipse path (-length / 2) (-length / 2) length length
  else if t = 1 then addStar path (0, 0) 5 (length / 4) (length / 2)
  else if t = 2 then addRectangle path (-length / 2) (-length / 2) length length
  else if t = 3 then addUpTriangleTo length path
  else if t = 4 then
    applyTransform (addUpTriangleTo length path)
      (rotationTransform (Real.pi / 2))
  else if t = 5 then
    applyTransform (addUpTriangleTo length path) (rotationTransform Real.pi)
  else if t = 6 then
    applyTransform (addUpTriangleTo length path)
      (rotationTransform (Real.pi * 3 / 2))
  else path

/-- Embeds the static `Marker::getMarkerPathFrom(marker, length)`. -/
def Marker.getMarkerPathFrom (marker : Marker) (length : ℝ) : JPath :=
  getMarkerPathFromCode marker.type.code length

/-- The closed square `[-l/2, l/2] × [-l/2, l/2]`; a path's bounding box is
contained in it exactly when every stored point satisfies this. -/
def inBox (l : ℝ) (p : ℝ × ℝ) : Prop :=
  -(l / 2) ≤ p.1 ∧ p.1 ≤ l / 2 ∧ -(l / 2) ≤ p.2 ∧ p.2 ≤ l / 2

/-! ## Lim theorems -/

/-- C1: dividing a `Lim` by a scalar divides both bounds.  `operator/=`
does exactly this; the free `operator/` was *meant* to (its body assigns
`rhs.min / val` and `rhs.max / val`), but as written it cannot compile, so
the intended-semantics model `limDivIntended` stands in for it.  In
particular `Lim(10,20)` divided by `2` yields `Lim(5,10)`. -/
theorem C1_lim_div_divides_both_bounds :
    (∀ (α : Type) [DivisionRing α] (lim : Lim α) (val : α),
        Lim.divAssign lim val = ⟨lim.min / val, lim.max / val⟩ ∧
        limDivIntended lim val = ⟨lim.min / val, lim.max / val⟩) ∧
    Lim.divAssign (⟨10, 20⟩ : Lim ℚ) 2 = ⟨5, 10⟩ ∧
    limDivIntended (⟨10, 20⟩ : Lim ℚ) 2 = ⟨5, 10⟩ := by
  refine ⟨fun α _ lim val => ⟨rfl, rfl⟩, ?_, ?_⟩ <;>
    · simp only [Lim.divAssign, limDivIntended, Lim.mk.injEq]
      norm_num

/-- C4: `Lim::operator bool` is `false` iff both bounds are zero, `true`
otherwise; `Lim(0,0)` converts to `false` and `Lim(0,5)` to `true`. -/
theorem C4_operator_bool_iff_not_both_zero :
    (∀ (α : Type) [Zero α] [DecidableEq α] (lim : Lim α),
        (Lim.toBool lim = false ↔ lim.min = 0 ∧ lim.max = 0) ∧
        (Lim.toBool lim = true ↔ ¬(lim.min = 0 ∧ lim.max = 0))) ∧
    Lim.toBool (⟨0, 0⟩ : Lim ℚ) = false ∧
    Lim.toBool (⟨0, 5⟩ : Lim ℚ) = true := by
  refine ⟨fun α _ _ lim => ?_, by decide, by decide⟩
  constructor <;> · simp [Lim.toBool]; tauto

/-- C5: `Lim::isMinOrMaxZero` is `true` iff at least one bound is zero;
it is `true` on `Lim(0,5)` and `false` on `Lim(1,5)`. -/
theorem C5_isMinOrMaxZero_iff :
    (∀ (α : Type) [Zero α] [DecidableEq α] (lim : Lim α),
        Lim.isMinOrMaxZero lim = true ↔ (lim.min = 0 ∨ lim.max = 0)) ∧
    Lim.isMinOrMaxZero (⟨0, 5⟩ : Lim ℚ) = true ∧
    Lim.isMinOrMaxZero (⟨1, 5⟩ : Lim ℚ) = false := by
  refine ⟨fun α _ _ lim => ?_, by decide, by decide⟩
  simp [Lim.isMinOrMaxZero]
  tauto

/-- C9: `Lim::operator=` behaves exactly like default copy-assignment:
after the assignment the left-hand side equals `rhs` field-wise (so
`operator==` holds), and the returned object is that updated left-hand
side.  `rhs` is passed by value, so the caller's `rhs` cannot change. -/
theorem C9_assign_is_default_copy :
    ∀ (α : Type) [DecidableEq α] (lhs rhs : Lim α),
      Lim.assign lhs rhs = Lim.assignDefault lhs rhs ∧
      Lim.assign lhs rhs = rhs ∧
      (Lim.assign lhs rhs).min = rhs.min ∧
      (Lim.assign lhs rhs).max = rhs.max ∧
      Lim.beq (Lim.assign lhs rhs) rhs = true := by
  intro α _ lhs rhs
  refine ⟨rfl, rfl, rfl, rfl, ?_⟩
  simp [Lim.beq, Lim.assign]

/-- C10: `iota_delta` over a range of `n` cells writes exactly `n`
elements, the `i`-th being `x0` with `dx` added `i` times (`x0 + i•dx`),
and it terminates (the model is a total structurally recursive function);
the overload taking `f` writes `f` of that same sequence. -/
theorem C10_iota_delta_spec :
    ∀ (α : Type) [AddMonoid α] (n : ℕ) (x0 dx : α) (f : α → α),
      (iota_delta n x0 dx).length = n ∧
      (∀ i : ℕ, i < n → (iota_delta n x0 dx)[i]? = some (x0 + i • dx)) ∧
      iota_delta_f n x0 dx f = (iota_delta n x0 dx).map f := by
  intro α _ n x0 dx f
  refine ⟨?_, ?_, ?_⟩
  · induction n generalizing x0 with
    | zero => rfl
    | succ n ih => simp [iota_delta, ih]
  · induction n generalizing x0 with
    | zero => intro i hi; omega
    | succ n ih =>
      intro i hi
      cases i with
      | zero => simp [iota_delta]
      | succ i =>
        have := ih (x0 + dx) i (by omega)
        simp only [iota_delta, List.getElem?_cons_succ, this, succ_nsmul',
          Option.some.injEq]
        rw [add_assoc]
  · induction n generalizing x0 with
    | zero => rfl
    | succ n ih => simp [iota_delta, iota_delta_f, ih]

/-! ## Geometry helper lemmas -/

theorem pathPoints_append (p q : JPath) :
    pathPoints (p ++ q) = pathPoints p ++ pathPoints q := by
  simp [pathPoints]

theorem points_ite_start_line (c : Prop) [Decidable c] (p : ℝ × ℝ) :
    PathElem.points
      ((if c then PathElem.startNewSubPath else PathElem.lineTo) p) = [p] := by
  split <;> rfl

/-- Every point stored by `addStar` is a point of the incoming path or lies
on the outer or inner circle around the centre. -/
theorem mem_pathPoints_addStar {p : ℝ × ℝ} {path : JPath} {c : ℝ × ℝ}
    {n : ℕ} {ri ro : ℝ}
    (hp : p ∈ pathPoints (addStar path c n ri ro)) :
    p ∈ pathPoints path ∨
      ∃ θ : ℝ, p = pointOnCircumference c ro θ ∨
        p = pointOnCircumference c ri θ := by
  by_cases h : 1 < n
  · rw [addStar, if_pos h] at hp
    rw [pathPoints_append, pathPoints_append] at hp
    rcases List.mem_append.mp hp with hp | hp
    · rcases List.mem_append.mp hp with hp | hp
      · exact Or.inl hp
      · right
        unfold pathPoints at hp
        obtain ⟨l, hlX, hpl⟩ := List.mem_flatten.mp hp
        obtain ⟨e, heX, rfl⟩ := List.mem_map.mp hlX
        obtain ⟨li, hli, heli⟩ := List.mem_flatten.mp heX
        obtain ⟨i, _hi, rfl⟩ := List.mem_map.mp hli
        rcases List.mem_cons.mp heli with rfl | heli2
        · rw [points_ite_start_line] at hpl
          exact ⟨_, Or.inl (List.mem_singleton.mp hpl)⟩
        · rcases List.mem_cons.mp heli2 with rfl | h3
          · exact ⟨_, Or.inr (List.mem_singleton.mp hpl)⟩
          · simp at h3
    · simp [pathPoints, PathElem.points] at hp
  · rw [addStar, if_neg h] at hp
    exact Or.inl hp

theorem mul_mem_symm_interval {r s x : ℝ} (h0 : 0 ≤ r) (hr : r ≤ s)
    (hx1 : -1 ≤ x) (hx2 : x ≤ 1) : -s ≤ r * x ∧ r * x ≤ s := by
  constructor <;> nlinarith

/-- A point at distance `r ≤ l/2` from the origin lies in the `l × l` box
centered at the origin. -/
theorem pointOnCircumference_origin_mem_box {r l θ : ℝ} (h0 : 0 ≤ r)
    (hr : r ≤ l / 2) : inBox l (pointOnCircumference (0, 0) r θ) := by
  obtain ⟨hs1, hs2⟩ :=
    mul_mem_symm_interval h0 hr (Real.neg_one_le_sin θ) (Real.sin_le_one θ)
  obtain ⟨hc1, hc2⟩ :=
    mul_mem_symm_interval h0 hr (Real.neg_one_le_cos θ) (Real.cos_le_one θ)
  simp only [inBox, pointOnCircumference, zero_add, zero_sub]
  refine ⟨hs1, hs2, ?_, ?_⟩ <;> linarith

/-- A point at distance `r` from the origin has squared norm `r ^ 2`. -/
theorem pointOnCircumference_origin_sq (r θ : ℝ) :
    (pointOnCircumference (0, 0) r θ).1 ^ 2 +
      (pointOnCircumference (0, 0) r θ).2 ^ 2 = r ^ 2 := by
  have h := Real.sin_sq_add_cos_sq θ
  simp only [pointOnCircumference, zero_add, zero_sub]
  nlinarith [h]

theorem cos_pi_mul_three_div_two : Real.cos (Real.pi * 3 / 2) = 0 := by
  have h : Real.pi * 3 / 2 = Real.pi + Real.pi / 2 := by ring
  rw [h, Real.cos_add]
  simp

theorem sin_pi_mul_three_div_two : Real.sin (Real.pi * 3 / 2) = -1 := by
  have h : Real.pi * 3 / 2 = Real.pi + Real.pi / 2 := by ring
  rw [h, Real.sin_add]
  simp

theorem addStar_ne_nil {path : JPath} {c : ℝ × ℝ} {n : ℕ} {ri ro : ℝ}
    (h : 1 < n) : addStar path c n ri ro ≠ [] := by
  rw [addStar, if_pos h]
  simp

/-- A marker as the source constructs one: the chosen type, no edge or face
colour override, and the default stroke `{1.0, mitered, rounded}`. -/
def markerOfType (t : MarkerType) : Marker :=
  ⟨t, none, none, ⟨1, .mitered, .rounded⟩⟩

/-- C2: for every marker (hence every one of the seven recognized marker
types) and every positive length, `getMarkerPathFrom` returns a non-empty
path all of whose stored points lie in `[-length/2, length/2]` on both
axes, so its bounding box is contained in that square; in this real-number
model the containment is exact for every shape, the rotated triangle
variants included. -/
theorem C2_marker_path_nonempty_in_box (m : Marker) (l : ℝ) (hl : 0 < l) :
    Marker.getMarkerPathFrom m l ≠ [] ∧
    ∀ p ∈ pathPoints (Marker.getMarkerPathFrom m l), inBox l p := by
  obtain ⟨t, ec, fc, st⟩ := m
  cases t with
  | Circle =>
    constructor
    · norm_num [Marker.getMarkerPathFrom, MarkerType.code,
        getMarkerPathFromCode, addEllipse]
      exact List.cons_ne_nil _ _
    · intro p hp
      norm_num [Marker.getMarkerPathFrom, MarkerType.code,
        getMarkerPathFromCode, addEllipse, pathPoints, PathElem.points] at hp
      rcases hp with rfl | rfl | rfl | rfl | rfl | rfl | rfl | rfl | rfl |
        rfl | rfl | rfl | rfl <;>
        (simp only [inBox]; refine ⟨?_, ?_, ?_, ?_⟩ <;> nlinarith)
  | Pentagram =>
    constructor
    · norm_num [Marker.getMarkerPathFrom, MarkerType.code,
        getMarkerPathFromCode]
      exact addStar_ne_nil (by norm_num)
    · intro p hp
      norm_num [Marker.getMarkerPathFrom, MarkerType.code,
        getMarkerPathFromCode] at hp
      rcases mem_pathPoints_addStar hp with h0 | ⟨θ, rfl | rfl⟩
      · simp [pathPoints] at h0
      · exact pointOnCircumference_origin_mem_box (by linarith) (by linarith)
      · exact pointOnCircumference_origin_mem_box (by linarith) (by linarith)
  | Square =>
    constructor
    · norm_num [Marker.getMarkerPathFrom, MarkerType.code,
        getMarkerPathFromCode, addRectangle]
      exact List.cons_ne_nil _ _
    · intro p hp
      norm_num [Marker.getMarkerPathFrom, MarkerType.code,
        getMarkerPathFromCode, addRectangle, pathPoints, PathElem.points] at hp
      rcases hp with rfl | rfl | rfl | rfl <;>
        (simp only [inBox]; refine ⟨?_, ?_, ?_, ?_⟩ <;> nlinarith)
  | UpTriangle =>
    constructor
    · norm_num [Marker.getMarkerPathFrom, MarkerType.code,
        getMarkerPathFromCode, addUpTriangleTo, addTriangle]
      exact List.cons_ne_nil _ _
    · intro p hp
      norm_num [Marker.getMarkerPathFrom, MarkerType.code,
        getMarkerPathFromCode, addUpTriangleTo, addTriangle, pathPoints,
        PathElem.points] at hp
      rcases hp with rfl | rfl | rfl <;>
        (simp only [inBox]; refine ⟨?_, ?_, ?_, ?_⟩ <;> nlinarith)
  | RightTriangle =>
    constructor
    · norm_num [Marker.getMarkerPathFrom, MarkerType.code,
        getMarkerPathFromCode, addUpTriangleTo, addTriangle, applyTransform]
      exact List.cons_ne_nil _ _
    · intro p hp
      norm_num [Marker.getMarkerPathFrom, MarkerType.code,
        getMarkerPathFromCode, addUpTriangleTo, addTriangle, applyTransform,
        rotationTransform, pathPoints, PathElem.points] at hp
      rcases hp with rfl | rfl | rfl <;>
        (simp only [inBox]; refine ⟨?_, ?_, ?_, ?_⟩ <;> nlinarith)
  | DownTriangle =>
    constructor
    · norm_num [Marker.getMarkerPathFrom, MarkerType.code,
        getMarkerPathFromCode, addUpTriangleTo, addTriangle, applyTransform]
      exact List.cons_ne_nil _ _
    · intro p hp
      norm_num [Marker.getMarkerPathFrom, MarkerType.code,
        getMarkerPathFromCode, addUpTriangleTo, addTriangle, applyTransform,
        rotationTransform, pathPoints, PathElem.points, Real.cos_pi,
        Real.sin_pi] at hp
      rcases hp with rfl | rfl | rfl <;>
        (simp only [inBox]; refine ⟨?_, ?_, ?_, ?_⟩ <;> nlinarith)
  | LeftTriangle =>
    constructor
    · norm_num [Marker.getMarkerPathFrom, MarkerType.code,
        getMarkerPathFromCode, addUpTriangleTo, addTriangle, applyTransform]
      exact List.cons_ne_nil _ _
    · intro p hp
      norm_num [Marker.getMarkerPathFrom, MarkerType.code,
        getMarkerPathFromCode, addUpTriangleTo, addTriangle, applyTransform,
        rotationTransform, pathPoints, PathElem.points,
        cos_pi_mul_three_div_two, sin_pi_mul_three_div_two] at hp
      rcases hp with rfl | rfl | rfl <;>
        (simp only [inBox]; refine ⟨?_, ?_, ?_, ?_⟩ <;> nlinarith)

theorem C2_marker_path_nonempty_in_box_witness :
    0 < (2 : ℝ) ∧
      (Marker.getMarkerPathFrom (markerOfType .Circle) 2 ≠ [] ∧
        ∀ p ∈ pathPoints (Marker.getMarkerPathFrom (markerOfType .Circle) 2),
          inBox 2 p) :=
  ⟨by norm_num,
    C2_marker_path_nonempty_in_box (markerOfType .Circle) 2 (by norm_num)⟩

/-- C3: the paths built for `RightTriangle`, `DownTriangle` and
`LeftTriangle` are exactly the `UpTriangle` path of the same length rotated
about the origin by 90°, 180° and 270° (`π/2`, `π`, `3π/2` radians); over
the reals the equality is exact. -/
theorem C3_triangles_are_rotations_of_up (l : ℝ) :
    Marker.getMarkerPathFrom (markerOfType .RightTriangle) l =
      applyTransform (Marker.getMarkerPathFrom (markerOfType .UpTriangle) l)
        (rotationTransform (Real.pi / 2)) ∧
    Marker.getMarkerPathFrom (markerOfType .DownTriangle) l =
      applyTransform (Marker.getMarkerPathFrom (markerOfType .UpTriangle) l)
        (rotationTransform Real.pi) ∧
    Marker.getMarkerPathFrom (markerOfType .LeftTriangle) l =
      applyTransform (Marker.getMarkerPathFrom (markerOfType .UpTriangle) l)
        (rotationTransform (Real.pi * 3 / 2)) := by
  refine ⟨?_, ?_, ?_⟩ <;>
    norm_num [Marker.getMarkerPathFrom, markerOfType, MarkerType.code,
      getMarkerPathFromCode]

/-- C7: the switch's `default:` branch makes the builder total: any
underlying enum value other than the seven enumerators' values 0..6 yields
the empty path, with no error signalled (the model returns a value for
every integer and every length). -/
theorem C7_unrecognized_marker_code_empty :
    ∀ t : ℤ, (∀ c : MarkerType, MarkerType.code c ≠ t) →
      ∀ l : ℝ, getMarkerPathFromCode t l = [] := by
  intro t h l
  have h0 : ¬t = 0 := fun ht => h .Circle (by simp [MarkerType.code, ht])
  have h1 : ¬t = 1 := fun ht => h .Pentagram (by simp [MarkerType.code, ht])
  have h2 : ¬t = 2 := fun ht => h .Square (by simp [MarkerType.code, ht])
  have h3 : ¬t = 3 := fun ht => h .UpTriangle (by simp [MarkerType.code, ht])
  have h4 : ¬t = 4 := fun ht =>
    h .RightTriangle (by simp [MarkerType.code, ht])
  have h5 : ¬t = 5 := fun ht =>
    h .DownTriangle (by simp [MarkerType.code, ht])
  have h6 : ¬t = 6 := fun ht =>
    h .LeftTriangle (by simp [MarkerType.code, ht])
  simp [getMarkerPathFromCode, h0, h1, h2, h3, h4, h5, h6]

theorem C7_unrecognized_marker_code_empty_witness :
    getMarkerPathFromCode 7 1 = [] :=
  C7_unrecognized_marker_code_empty 7 (by decide) 1

/-- C8: `getMarkerPathFrom` is a pure function of the marker's `type` and
the length only: two markers agreeing on `type` produce equal paths at
every length, whatever their `EdgeColour`, `FaceColour` and
`edge_stroke_type`; as a function of the embedding it is deterministic
and mutates nothing. -/
theorem C8_path_depends_only_on_type (m1 m2 : Marker) (l : ℝ)
    (h : m1.type = m2.type) :
    Marker.getMarkerPathFrom m1 l = Marker.getMarkerPathFrom m2 l := by
  simp [Marker.getMarkerPathFrom, h]

theorem C8_path_depends_only_on_type_witness :
    Marker.getMarkerPathFrom
        ⟨.Circle, some ⟨255⟩, none, ⟨1, .mitered, .rounded⟩⟩ 2 =
      Marker.getMarkerPathFrom
        ⟨.Circle, none, some ⟨17⟩, ⟨3, .curved, .butt⟩⟩ 2 :=
  C8_path_depends_only_on_type _ _ 2 rfl

/-- C6: each shape is built centered at the origin with bounding dimension
`size`: the circle is the four-arc ellipse whose anchor points are the
midpoints of the sides of the `size × size` box (control points at the
0.55 factor), the pentagram is a 5-pointed star of 10 stored vertices
starting at the top whose vertices lie on circles of radius `size/2`
(outer) and `size/4` (inner), the square's vertices are the four corners
of the `size × size` box, and the up-triangle is the isoceles triangle
with apex `(0, -size/2)` at the top and base from `(-size/2, size/2)` to
`(size/2, size/2)`, so its width and height both equal `size`. -/
theorem C6_marker_shapes_geometry (l : ℝ) :
    (pathPoints (Marker.getMarkerPathFrom (markerOfType .Circle) l) =
        [(0, -(l / 2)),
         (11 * l / 40, -(l / 2)), (l / 2, -(11 * l / 40)), (l / 2, 0),
         (l / 2, 11 * l / 40), (11 * l / 40, l / 2), (0, l / 2),
         (-(11 * l / 40), l / 2), (-(l / 2), 11 * l / 40), (-(l / 2), 0),
         (-(l / 2), -(11 * l / 40)), (-(11 * l / 40), -(l / 2)),
         (0, -(l / 2))]) ∧
    ((pathPoints (Marker.getMarkerPathFrom (markerOfType .Pentagram) l)).length
        = 10 ∧
      (pathPoints (Marker.getMarkerPathFrom (markerOfType .Pentagram) l)).head?
        = some (0, -(l / 2)) ∧
      ∀ p ∈ pathPoints (Marker.getMarkerPathFrom (markerOfType .Pentagram) l),
        p.1 ^ 2 + p.2 ^ 2 = (l / 2) ^ 2 ∨ p.1 ^ 2 + p.2 ^ 2 = (l / 4) ^ 2) ∧
    (pathPoints (Marker.getMarkerPathFrom (markerOfType .Square) l) =
        [(-(l / 2), l / 2), (-(l / 2), -(l / 2)), (l / 2, -(l / 2)),
         (l / 2, l / 2)]) ∧
    (pathPoints (Marker.getMarkerPathFrom (markerOfType .UpTriangle) l) =
        [(0, -(l / 2)), (-(l / 2), l / 2), (l / 2, l / 2)]) := by
  have hr5 : List.range 5 = [0, 1, 2, 3, 4] := rfl
  refine ⟨?_, ⟨?_, ?_, ?_⟩, ?_, ?_⟩
  · norm_num [Marker.getMarkerPathFrom, markerOfType, MarkerType.code,
      getMarkerPathFromCode, addEllipse, pathPoints, PathElem.points]
    and_intros <;> ring
  · norm_num [Marker.getMarkerPathFrom, markerOfType, MarkerType.code,
      getMarkerPathFromCode, addStar, hr5, pathPoints, PathElem.points]
  · norm_num [Marker.getMarkerPathFrom, markerOfType, MarkerType.code,
      getMarkerPathFromCode, addStar, hr5, pathPoints, PathElem.points,
      pointOnCircumference]
  · intro p hp
    norm_num [Marker.getMarkerPathFrom, markerOfType, MarkerType.code,
      getMarkerPathFromCode] at hp
    rcases mem_pathPoints_addStar hp with h0 | ⟨θ, rfl | rfl⟩
    · simp [pathPoints] at h0
    · exact Or.inl (pointOnCircumference_origin_sq _ θ)
    · exact Or.inr (pointOnCircumference_origin_sq _ θ)
  · norm_num [Marker.getMarkerPathFrom, markerOfType, MarkerType.code,
      getMarkerPathFromCode, addRectangle, pathPoints, PathElem.points]
    and_intros <;> ring
  · norm_num [Marker.getMarkerPathFrom, markerOfType, MarkerType.code,
      getMarkerPathFromCode, addUpTriangleTo, addTriangle, pathPoints,
      PathElem.points]
    ring
